import Mathlib

/-!
Verification development for the Chill Gamer review-service backend
(src/api/index.js and its near-duplicate entry-point variants).

The service is a set of HTTP handlers, each of which performs one
document-store operation.  We embed each handler as a pure Lean function
from the relevant collection state (a list of documents) and the request
data to a response and a successor state.  Timestamps produced by the
`new Date()` calls of a handler invocation and the identifier generated
by an insert are passed in as explicit parameters (`now`, `freshId`).
-/

namespace ChillGamer

/-- BSON-style scalar values appearing in the documents this service
stores: strings, integers, dates (modelled as natural-number timestamps)
and ObjectId identifiers (modelled as natural numbers holding the 96-bit
payload). -/
inductive Val where
  | str : String → Val
  | int : Int → Val
  | date : Nat → Val
  | oid : Nat → Val
deriving DecidableEq

/-- A document is an ordered association list of field names to values,
the shape both of a parsed JSON request body and of a stored BSON
document.  JSON objects have distinct keys; theorems that need this
assume `keysNodup`. -/
abbrev Doc := List (String × Val)

/-- Distinctness of the field names of a document. -/
def keysNodup (d : Doc) : Prop := (d.map Prod.fst).Nodup

/-- Read a field of a document: the value of the first binding of the
key. -/
def getField : Doc → String → Option Val
  | [], _ => none
  | (k0, v0) :: rest, k => if k0 == k then some v0 else getField rest k

/-- Write one field, keeping the position of an existing binding (the
behaviour both of a JavaScript object-spread override and of a $set on an
existing BSON field) and appending a fresh binding otherwise. -/
def setField : Doc → String → Val → Doc
  | [], k, v => [(k, v)]
  | (k0, v0) :: rest, k, v =>
    if k0 == k then (k, v) :: rest else (k0, v0) :: setField rest k v

/-- Write several fields in order, as an object spread with overrides or
a $set update document does. -/
def setFields (d : Doc) (kvs : Doc) : Doc :=
  kvs.foldl (fun acc kv => setField acc kv.1 kv.2) d

/-- JavaScript truthiness of a value: empty strings and zero are falsy,
every other modelled value (including every Date) is truthy. -/
def jsTruthyVal : Val → Bool
  | Val.str s => !(s == "")
  | Val.int n => !(n == 0)
  | Val.date _ => true
  | Val.oid _ => true

/-- Presence test used by the guards `if (q)` on query parameters: an
absent parameter and the empty string are both falsy. -/
def activeParam : Option String → Option String
  | none => none
  | some s => if s == "" then none else some s

/-- Outcome of one handler invocation: a JSON document, a JSON array of
documents, a mutation summary (matchedCount, modifiedCount), or an error
response with an HTTP status code. -/
inductive RouteResult where
  | ok : Doc → RouteResult
  | okList : List Doc → RouteResult
  | okSummary : Nat → Nat → RouteResult
  | err : Nat → String → RouteResult
deriving DecidableEq

/-- HTTP status of a handler outcome; express sends 200 by default. -/
def statusOf : RouteResult → Nat
  | RouteResult.ok _ => 200
  | RouteResult.okList _ => 200
  | RouteResult.okSummary _ _ => 200
  | RouteResult.err s _ => s

/-! ### ObjectId strings

The driver accepts a 24-character hexadecimal string and decodes it; any
other string makes the `new ObjectId(req.params.id)` constructor throw,
which the surrounding try/catch turns into a 500 response. -/

/-- Hexadecimal digit test matching the /[0-9a-fA-F]/ class the ObjectId
constructor validates with. -/
def isHexDigitChar (c : Char) : Bool :=
  (decide (Char.ofNat 48 ≤ c) && decide (c ≤ Char.ofNat 57)) ||
  (decide (Char.ofNat 97 ≤ c) && decide (c ≤ Char.ofNat 102)) ||
  (decide (Char.ofNat 65 ≤ c) && decide (c ≤ Char.ofNat 70))

/-- Numeric value of a hexadecimal digit character. -/
def hexCharVal (c : Char) : Nat :=
  if decide (Char.ofNat 48 ≤ c) && decide (c ≤ Char.ofNat 57) then c.toNat - 48
  else if decide (Char.ofNat 97 ≤ c) && decide (c ≤ Char.ofNat 102) then c.toNat - 87
  else if decide (Char.ofNat 65 ≤ c) && decide (c ≤ Char.ofNat 70) then c.toNat - 55
  else 0

/-- Lowercase hexadecimal digit for a value below 16, as ObjectId
serialization produces. -/
def hexDigitChar (n : Nat) : Char :=
  if n < 10 then Char.ofNat (48 + n) else Char.ofNat (87 + n)

/-- Big-endian hexadecimal digits of a value, padded to a fixed width. -/
def natToHexChars : Nat → Nat → List Char
  | 0, _ => []
  | w + 1, v => natToHexChars w (v / 16) ++ [hexDigitChar (v % 16)]

/-- Hexadecimal string of an ObjectId payload, the form in which the
server returns identifiers to clients. -/
def oidToHex (n : Nat) : String := String.mk (natToHexChars 24 n)

/-- Payload decoded from a list of hexadecimal digits. -/
def oidFromHexChars (cs : List Char) : Nat :=
  cs.foldl (fun a c => a * 16 + hexCharVal c) 0

/-- Payload decoded from a hexadecimal identifier string. -/
def oidOfHex (s : String) : Nat := oidFromHexChars s.toList

/-- Validity of an identifier string for the ObjectId constructor: 24
hexadecimal characters. -/
def isValidObjectIdStr (s : String) : Bool :=
  s.length == 24 && s.toList.all isHexDigitChar

/-- Message of the error the ObjectId constructor throws on a string
that is not a valid identifier (abbreviated). -/
def invalidObjectIdMsg : String :=
  "input must be a 24 character hex string"

/-- Predicate of the filter on the _id field used by the id-addressed
routes. -/
def hasOid (n : Nat) (d : Doc) : Bool :=
  getField d "_id" == some (Val.oid n)

/-! ### Regex patterns for the search route

The search route forwards the raw `q` parameter to the database as a
case-insensitive $regex filter on `gameTitle`.  We model the fragment of
the pattern grammar the development needs: literal characters and the
dot wildcard.  A pattern using any other metacharacter is outside the
modelled fragment and is mapped to a query failure; the theorems below
exercise that failure case only at a pattern (an unbalanced group) that
is an ill-formed regular expression and does make the real query fail. -/

/-- Characters with a metacharacter role in the pattern grammar. -/
def isRegexMetaChar (c : Char) : Bool :=
  c == '.' || c == '*' || c == '+' || c == '?' || c == '(' || c == ')' ||
  c == '[' || c == ']' || c == '^' || c == '$' || c == '|' || c == '\\' ||
  c == Char.ofNat 123 || c == Char.ofNat 125

/-- Pattern token: a literal character or the dot wildcard. -/
inductive RTok where
  | lit : Char → RTok
  | dot : RTok
deriving DecidableEq

/-- Compile a pattern into tokens; patterns outside the modelled
fragment yield none (query failure). -/
def parsePattern : List Char → Option (List RTok)
  | [] => some []
  | c :: rest =>
    if c == '.' then (parsePattern rest).map (fun ts => RTok.dot :: ts)
    else if isRegexMetaChar c then none
    else (parsePattern rest).map (fun ts => RTok.lit c :: ts)

/-- Match of one token against one character; the i option of the filter
makes literal comparison case-insensitive, and the dot matches any
character. -/
def tokMatches (t : RTok) (c : Char) : Bool :=
  match t with
  | RTok.dot => true
  | RTok.lit l => l.toLower == c.toLower

/-- Match of a token sequence against a prefix of the text. -/
def matchHere : List RTok → List Char → Bool
  | [], _ => true
  | _ :: _, [] => false
  | t :: ts, c :: cs => tokMatches t c && matchHere ts cs

/-- Unanchored match of a token sequence anywhere in the text, the
semantics of an unanchored regex filter. -/
def matchSomewhere (ts : List RTok) : List Char → Bool
  | [] => matchHere ts []
  | c :: cs => matchHere ts (c :: cs) || matchSomewhere ts cs

/-- Case-insensitive prefix comparison of character lists. -/
def ciPrefixOf : List Char → List Char → Bool
  | [], _ => true
  | _ :: _, [] => false
  | a :: as, b :: bs => (a.toLower == b.toLower) && ciPrefixOf as bs

/-- Case-insensitive substring test on character lists. -/
def ciSubstringOf (q : List Char) : List Char → Bool
  | [] => ciPrefixOf q []
  | c :: cs => ciPrefixOf q (c :: cs) || ciSubstringOf q cs

/-- Case-insensitive substring containment of strings, the reading of
the specification phrase "gameTitle contains q case-insensitively". -/
def containsCI (q s : String) : Bool := ciSubstringOf q.toList s.toList

/-- Message of the error a query with an ill-formed regular expression
produces (abbreviated). -/
def invalidRegexMsg : String := "invalid regular expression"

/-! ### Integer parsing for the minRating parameter -/

/-- Decimal value of a digit run. -/
def decDigitsVal (cs : List Char) : Nat :=
  cs.foldl (fun a c => a * 10 + (c.toNat - 48)) 0

/-- Hexadecimal value of a digit run. -/
def hexDigitsVal (cs : List Char) : Nat :=
  cs.foldl (fun a c => a * 16 + hexCharVal c) 0

/-- Longest decimal-digit prefix, none when empty. -/
def decPrefixVal (cs : List Char) : Option Nat :=
  let ds := cs.takeWhile Char.isDigit
  if ds.isEmpty then none else some (decDigitsVal ds)

/-- Longest hexadecimal-digit prefix, none when empty. -/
def hexPrefixVal (cs : List Char) : Option Nat :=
  let ds := cs.takeWhile isHexDigitChar
  if ds.isEmpty then none else some (hexDigitsVal ds)

/-- Digit parsing after the sign, honouring the 0x hexadecimal form. -/
def parseDigitsJS (cs : List Char) : Option Nat :=
  match cs with
  | '0' :: x :: rest =>
    if x == 'x' || x == 'X' then hexPrefixVal rest else decPrefixVal ('0' :: x :: rest)
  | _ => decPrefixVal cs

/-- Model of parseInt(s): skip whitespace, read an optional sign, then
the longest digit prefix; none models NaN. -/
def parseIntJS (s : String) : Option Int :=
  let cs := s.toList.dropWhile (fun c => c == ' ' || c == '\t' || c == '\n' || c == '\r')
  match cs with
  | '-' :: rest => (parseDigitsJS rest).map (fun n => -(n : Int))
  | '+' :: rest => (parseDigitsJS rest).map (fun n => (n : Int))
  | rest => (parseDigitsJS rest).map (fun n => (n : Int))

/-! ### BSON ordering for sort({rating: -1})

MongoDB sorts mixed types by type rank (missing/null below numbers,
numbers below strings, strings below ObjectIds, ObjectIds below dates
among the types modelled here) and within a type by value. -/

/-- Type rank of a possibly missing value in the BSON sort order. -/
def bsonRank : Option Val → Nat
  | none => 0
  | some (Val.int _) => 1
  | some (Val.str _) => 2
  | some (Val.oid _) => 3
  | some (Val.date _) => 4

/-- Within-type value comparison; mixed-type pairs are decided by rank
alone and never reach the default arm with equal ranks. -/
def bsonInnerLe : Option Val → Option Val → Bool
  | some (Val.int a), some (Val.int b) => decide (a ≤ b)
  | some (Val.str a), some (Val.str b) => decide (a ≤ b)
  | some (Val.oid a), some (Val.oid b) => decide (a ≤ b)
  | some (Val.date a), some (Val.date b) => decide (a ≤ b)
  | _, _ => true

/-- Total BSON comparison of possibly missing values. -/
def bsonLe (x y : Option Val) : Bool :=
  decide (bsonRank x < bsonRank y) || (bsonRank x == bsonRank y && bsonInnerLe x y)

/-- Descending comparison on the rating field, the comparator realised
by sort({rating: -1}). -/
def ratingGe (a b : Doc) : Bool :=
  bsonLe (getField b "rating") (getField a "rating")

/-! ### Generic store operations -/

/-- Replacement of the first document matching a predicate, the
behaviour of updateOne: none when no document matches. -/
def updateFirstMatch (p : Doc → Bool) (u : Doc → Doc) : List Doc → Option (List Doc)
  | [] => none
  | d :: ds =>
    if p d then some (u d :: ds)
    else (updateFirstMatch p u ds).map (fun t => d :: t)

/-- Count of the documents of a state matching a predicate. -/
def countMatching (p : Doc → Bool) (s : List Doc) : Nat := (s.filter p).length

/-! ### Route handlers (src/api/index.js; the other entry-point variants
define the same handler bodies) -/

/-- Handler of GET /chill-gamer/reviews: find().toArray(). -/
def listReviews (reviews : List Doc) : RouteResult :=
  RouteResult.okList reviews

/-- Handler of GET /chill-gamer/reviews/highest-rated:
find().sort({rating: -1}).limit(6).toArray(). -/
def listTopRatedReviews (reviews : List Doc) : RouteResult :=
  RouteResult.okList ((reviews.mergeSort ratingGe).take 6)

/-- Handler of GET /chill-gamer/reviews/:id: findOne on the decoded
identifier, 404 when no document matches; an invalid identifier string
makes the ObjectId constructor throw, which the catch turns into a 500
response. -/
def getReview (reviews : List Doc) (idStr : String) : RouteResult :=
  if isValidObjectIdStr idStr then
    match reviews.find? (fun d => getField d "_id" == some (Val.oid (oidOfHex idStr))) with
    | some r => RouteResult.ok r
    | none => RouteResult.err 404 "Review not found"
  else RouteResult.err 500 invalidObjectIdMsg

/-- Document stored by POST /chill-gamer/reviews: the body spread with
createdAt and updatedAt set to the call time, then the insert-assigned
_id (the driver keeps an _id already present in the body).  The handler
invokes new Date() twice in the same tick; both timestamps are `now`. -/
def storedReview (body : Doc) (now freshId : Nat) : Doc :=
  let review := setFields body [("createdAt", Val.date now), ("updatedAt", Val.date now)]
  let insertedId := match getField review "_id" with
    | some v => v
    | none => Val.oid freshId
  setField review "_id" insertedId

/-- Handler of POST /chill-gamer/reviews: insert the merged document and
respond with it, _id included. -/
def createReview (reviews : List Doc) (body : Doc) (now freshId : Nat) :
    RouteResult × List Doc :=
  (RouteResult.ok (storedReview body now freshId), reviews ++ [storedReview body now freshId])

/-- Handler of PUT /chill-gamer/reviews/:id: updateOne with a $set of the
body spread with updatedAt = now, answered with the mutation summary;
an invalid identifier string yields a 500 response as in getReview. -/
def updateReview (reviews : List Doc) (idStr : String) (body : Doc) (now : Nat) :
    RouteResult × List Doc :=
  if isValidObjectIdStr idStr then
    let u := fun d => setFields d (setField body "updatedAt" (Val.date now))
    match updateFirstMatch (fun d => getField d "_id" == some (Val.oid (oidOfHex idStr))) u reviews with
    | some updated =>
      (RouteResult.okSummary 1 (if updated == reviews then 0 else 1), updated)
    | none => (RouteResult.okSummary 0 0, reviews)
  else (RouteResult.err 500 invalidObjectIdMsg, reviews)

/-- Document stored by POST /chill-gamer/watchlist: the body spread with
addedAt = now, then the insert-assigned _id. -/
def watchlistStored (body : Doc) (now freshId : Nat) : Doc :=
  let item := setField body "addedAt" (Val.date now)
  let insertedId := match getField item "_id" with
    | some v => v
    | none => Val.oid freshId
  setField item "_id" insertedId

/-- Handler of POST /chill-gamer/watchlist: findOne on the
(userEmail, gameTitle) pair of the body; reject with a 400 response when
a matching entry exists, otherwise insert the stamped entry and respond
with the stored document. -/
def addToWatchlist (watchlist : List Doc) (body : Doc) (now freshId : Nat) :
    RouteResult × List Doc :=
  match watchlist.find? (fun d =>
      getField d "userEmail" == getField body "userEmail" &&
      getField d "gameTitle" == getField body "gameTitle") with
  | some _ => (RouteResult.err 400 "Already in watchlist", watchlist)
  | none =>
    (RouteResult.ok (watchlistStored body now freshId),
     watchlist ++ [watchlistStored body now freshId])

/-- Field document written by POST /chill-gamer/users: the body spread
with lastLogin = now and joinDate = body.joinDate when that is truthy,
defaulting to now. -/
def upsertUserDoc (body : Doc) (now : Nat) : Doc :=
  let joinDateVal := match getField body "joinDate" with
    | some v => if jsTruthyVal v then v else Val.date now
    | none => Val.date now
  setFields body [("lastLogin", Val.date now), ("joinDate", joinDateVal)]

/-- Handler of POST /chill-gamer/users: updateOne on {email: body.email}
with $set of `upsertUserDoc` and upsert enabled.  On a miss the store
synthesizes a document from the equality filter and applies the $set.
The JSON acknowledgement (message and update summary) and the
store-assigned _id of an upserted document are not modelled; no claim
refers to them. -/
def upsertUser (users : List Doc) (body : Doc) (now : Nat) : List Doc :=
  let user := upsertUserDoc body now
  match updateFirstMatch (fun d => getField d "email" == getField body "email")
      (fun d => setFields d user) users with
  | some updated => updated
  | none =>
    let seed : Doc := match getField body "email" with
      | some e => [("email", e)]
      | none => []
    users ++ [setFields seed user]

/-- Title filter of the search route: a compiled pattern must match the
gameTitle string; a document without a string gameTitle is not
matched by the $regex filter. -/
def titleRegexMatches (ts : List RTok) (d : Doc) : Bool :=
  match getField d "gameTitle" with
  | some (Val.str s) => matchSomewhere ts s.toList
  | _ => false

/-- Genre filter of the search route: exact equality when present. -/
def genreFilterMatches (g : Option String) (d : Doc) : Bool :=
  match g with
  | none => true
  | some gv => getField d "genre" == some (Val.str gv)

/-- Rating filter of the search route: rating at least
parseInt(minRating) when the parameter is present.  An unparsable
parameter produces a NaN bound, which matches no modelled value. -/
def ratingFilterMatches (m : Option String) (d : Doc) : Bool :=
  match m with
  | none => true
  | some s =>
    match parseIntJS s with
    | some t =>
      match getField d "rating" with
      | some (Val.int r) => decide (t ≤ r)
      | _ => false
    | none => false

/-- Handler of GET /chill-gamer/search/reviews: build the conjunctive
filter from the present, truthy parameters and run find(filter); an
ill-formed q pattern makes the query fail, which the catch turns into a
500 response. -/
def searchReviews (reviews : List Doc) (q genre minRating : Option String) :
    RouteResult :=
  match activeParam q with
  | some pat =>
    match parsePattern pat.toList with
    | none => RouteResult.err 500 invalidRegexMsg
    | some ts =>
      RouteResult.okList (reviews.filter (fun d =>
        titleRegexMatches ts d &&
        genreFilterMatches (activeParam genre) d &&
        ratingFilterMatches (activeParam minRating) d))
  | none =>
    RouteResult.okList (reviews.filter (fun d =>
      genreFilterMatches (activeParam genre) d &&
      ratingFilterMatches (activeParam minRating) d))

/-! ### Spec-side predicates used to state the claims -/

/-- Document whose gameTitle string contains the query
case-insensitively. -/
def titleContainsCI (q : String) (d : Doc) : Bool :=
  match getField d "gameTitle" with
  | some (Val.str s) => containsCI q s
  | _ => false

/-- Document whose genre equals the given string. -/
def genreIs (g : String) (d : Doc) : Bool :=
  getField d "genre" == some (Val.str g)

/-- Document whose integer rating is at least the threshold. -/
def ratingAtLeast (t : Int) (d : Doc) : Bool :=
  match getField d "rating" with
  | some (Val.int r) => decide (t ≤ r)
  | _ => false

/-- Document whose email field equals the given value. -/
def emailMatches (e : Val) (d : Doc) : Bool :=
  getField d "email" == some e

/-- Count of User documents with the given email. -/
def countEmail (s : List Doc) (e : Val) : Nat :=
  countMatching (emailMatches e) s

/-- Document whose (userEmail, gameTitle) pair equals the given pair. -/
def pairMatches (ue gt : Val) (d : Doc) : Bool :=
  getField d "userEmail" == some ue && getField d "gameTitle" == some gt

/-- Count of watchlist entries with the given (userEmail, gameTitle)
pair. -/
def countPair (s : List Doc) (ue gt : Val) : Nat :=
  countMatching (pairMatches ue gt) s

/-! ### Lemmas about fields and updates -/

theorem getField_nil (k : String) : getField ([] : Doc) k = none := rfl

theorem getField_cons (k0 : String) (v0 : Val) (rest : Doc) (k : String) :
    getField ((k0, v0) :: rest) k = if (k0 == k) then some v0 else getField rest k := rfl

theorem getField_append (d1 d2 : Doc) (k : String) :
    getField (d1 ++ d2) k = (getField d1 k).or (getField d2 k) := by
  induction d1 with
  | nil => simp [getField]
  | cons hd tl ih =>
    rcases hd with ⟨k0, v0⟩
    rw [List.cons_append, getField_cons, getField_cons]
    by_cases h : (k0 == k) = true
    · simp [h]
    · simp only [h, if_false]
      exact ih

theorem getField_eq_none_iff (d : Doc) (k : String) :
    getField d k = none ↔ d.any (fun p => p.1 == k) = false := by
  induction d with
  | nil => simp [getField]
  | cons hd tl ih =>
    rcases hd with ⟨k0, v0⟩
    rw [getField_cons, List.any_cons]
    by_cases h : (k0 == k) = true
    · simp [h]
    · simp only [h, if_false, Bool.false_or]
      exact ih

theorem getField_setField_same (d : Doc) (k : String) (v : Val) :
    getField (setField d k v) k = some v := by
  induction d with
  | nil => simp [setField, getField]
  | cons hd tl ih =>
    rcases hd with ⟨k0, v0⟩
    by_cases hh : k0 = k
    · subst hh
      simp [setField, getField]
    · simp [setField, getField, hh, ih]

theorem getField_setField_other (d : Doc) (k k' : String) (v : Val)
    (h : (k == k') = false) :
    getField (setField d k v) k' = getField d k' := by
  have hne : k ≠ k' := by simpa using h
  induction d with
  | nil => simp [setField, getField, hne]
  | cons hd tl ih =>
    rcases hd with ⟨k0, v0⟩
    by_cases hh : k0 = k
    · subst hh
      simp [setField, getField, hne]
    · simp [setField, getField, hh, ih]

theorem mem_keys_setField (d : Doc) (k : String) (v : Val) (x : String) :
    x ∈ (setField d k v).map Prod.fst ↔ x ∈ d.map Prod.fst ∨ x = k := by
  induction d with
  | nil => simp [setField]
  | cons hd tl ih =>
    rcases hd with ⟨k0, v0⟩
    by_cases hh : k0 = k
    · subst hh
      simp [setField]
      tauto
    · simp [setField, hh, ih]
      tauto

theorem setFields_nil (d : Doc) : setFields d [] = d := rfl

theorem setFields_cons (d : Doc) (kv : String × Val) (rest : Doc) :
    setFields d (kv :: rest) = setFields (setField d kv.1 kv.2) rest := rfl

theorem keysNodup_setField (d : Doc) (k : String) (v : Val)
    (h : keysNodup d) : keysNodup (setField d k v) := by
  induction d with
  | nil => simp [setField, keysNodup]
  | cons hd tl ih =>
    rcases hd with ⟨k0, v0⟩
    unfold keysNodup at h
    rw [List.map_cons, List.nodup_cons] at h
    by_cases hh : k0 = k
    · subst hh
      unfold keysNodup
      have : setField ((k0, v0) :: tl) k0 v = (k0, v) :: tl := by simp [setField]
      rw [this, List.map_cons, List.nodup_cons]
      exact h
    · have hsf : setField ((k0, v0) :: tl) k v = (k0, v0) :: setField tl k v := by
        simp [setField, hh]
      rw [hsf]
      unfold keysNodup
      rw [List.map_cons, List.nodup_cons]
      refine ⟨?_, ih h.2⟩
      intro hmem
      rcases (mem_keys_setField tl k v k0).mp hmem with hin | heq
      · exact h.1 hin
      · exact hh heq

theorem keysNodup_setFields (d : Doc) (u : Doc) (h : keysNodup d) :
    keysNodup (setFields d u) := by
  induction u generalizing d with
  | nil => exact h
  | cons kv rest ih =>
    rw [setFields_cons]
    exact ih _ (keysNodup_setField _ _ _ h)

theorem getField_setFields_of_none (u : Doc) (d : Doc) (k : String)
    (h : getField u k = none) :
    getField (setFields d u) k = getField d k := by
  induction u generalizing d with
  | nil => rfl
  | cons kv rest ih =>
    rcases kv with ⟨k0, v0⟩
    rw [getField_cons] at h
    by_cases hh : (k0 == k) = true
    · rw [if_pos hh] at h
      exact absurd h (by simp)
    · rw [if_neg hh] at h
      rw [setFields_cons, ih _ h, getField_setField_other]
      exact Bool.eq_false_iff.mpr hh

theorem getField_setFields_of_some (u : Doc) (d : Doc) (k : String) (v : Val)
    (hnd : keysNodup u) (h : getField u k = some v) :
    getField (setFields d u) k = some v := by
  induction u generalizing d with
  | nil => simp [getField] at h
  | cons kv rest ih =>
    rcases kv with ⟨k0, v0⟩
    rw [getField_cons] at h
    by_cases hh : (k0 == k) = true
    · rw [if_pos hh] at h
      have hk0 : k0 = k := by simpa using hh
      have hv : v0 = v := by simpa using h
      have hrest : getField rest k = none := by
        rw [getField_eq_none_iff, List.any_eq_false]
        intro p hp
        unfold keysNodup at hnd
        rw [List.map_cons, List.nodup_cons] at hnd
        intro hpk
        exact hnd.1 (by
          rw [hk0]
          have : p.1 = k := by simpa using hpk
          rw [← this]
          exact List.mem_map.mpr ⟨p, hp, rfl⟩)
      rw [setFields_cons, getField_setFields_of_none _ _ _ hrest]
      subst hk0
      subst hv
      exact getField_setField_same d k0 v0
    · rw [if_neg hh] at h
      have hnd' : keysNodup rest := by
        unfold keysNodup at hnd ⊢
        rw [List.map_cons, List.nodup_cons] at hnd
        exact hnd.2
      rw [setFields_cons]
      exact ih _ hnd' h

/-! ### Lemmas about updateFirstMatch, find? and counting -/

theorem updateFirstMatch_eq_none (p : Doc → Bool) (u : Doc → Doc) (l : List Doc)
    (h : l.find? p = none) : updateFirstMatch p u l = none := by
  induction l with
  | nil => rfl
  | cons d ds ih =>
    rw [List.find?_eq_none] at h
    have hd : p d = false := Bool.eq_false_iff.mpr (h d (List.mem_cons_self d ds))
    rw [updateFirstMatch, if_neg (by simp [hd])]
    rw [ih (by
      rw [List.find?_eq_none]
      intro x hx
      exact h x (List.mem_cons_of_mem d hx))]
    rfl

theorem updateFirstMatch_split (p : Doc → Bool) (u : Doc → Doc)
    (pre : List Doc) (d : Doc) (post : List Doc)
    (hpre : ∀ x ∈ pre, p x = false) (hd : p d = true) :
    updateFirstMatch p u (pre ++ d :: post) = some (pre ++ u d :: post) := by
  induction pre with
  | nil => simp [updateFirstMatch, hd]
  | cons a pre' ih =>
    have ha : p a = false := hpre a (List.mem_cons_self a pre')
    rw [List.cons_append, updateFirstMatch, if_neg (by simp [ha])]
    rw [ih (fun x hx => hpre x (List.mem_cons_of_mem a hx))]
    rfl

theorem find?_split {p : Doc → Bool} {l : List Doc} {d : Doc}
    (h : l.find? p = some d) :
    ∃ pre post, l = pre ++ d :: post ∧ ∀ x ∈ pre, p x = false := by
  induction l with
  | nil => simp at h
  | cons a as ih =>
    by_cases ha : p a = true
    · rw [List.find?_cons_of_pos _ ha] at h
      refine ⟨[], as, ?_, ?_⟩
      · simpa using h
      · intro x hx
        simp at hx
    · rw [List.find?_cons_of_neg _ ha] at h
      rcases ih h with ⟨pre, post, heq, hpre⟩
      refine ⟨a :: pre, post, by rw [heq, List.cons_append], ?_⟩
      intro x hx
      rcases List.mem_cons.mp hx with hx | hx
      · subst hx
        exact Bool.eq_false_iff.mpr ha
      · exact hpre x hx

theorem find?_first (p : Doc → Bool) (pre : List Doc) (d : Doc) (post : List Doc)
    (hpre : ∀ x ∈ pre, p x = false) (hd : p d = true) :
    (pre ++ d :: post).find? p = some d := by
  induction pre with
  | nil => simp [List.find?_cons_of_pos _ hd]
  | cons a pre' ih =>
    have ha : p a = false := hpre a (List.mem_cons_self a pre')
    rw [List.cons_append, List.find?_cons_of_neg _ (by simp [ha])]
    exact ih (fun x hx => hpre x (List.mem_cons_of_mem a hx))

theorem countMatching_append (p : Doc → Bool) (a b : List Doc) :
    countMatching p (a ++ b) = countMatching p a + countMatching p b := by
  unfold countMatching
  rw [List.filter_append, List.length_append]

theorem countMatching_cons (p : Doc → Bool) (d : Doc) (s : List Doc) :
    countMatching p (d :: s) =
      (if p d then 1 else 0) + countMatching p s := by
  unfold countMatching
  by_cases h : p d = true
  · rw [List.filter_cons_of_pos h, if_pos h, List.length_cons]
    omega
  · rw [List.filter_cons_of_neg h, if_neg h]
    omega

theorem countMatching_eq_zero (p : Doc → Bool) (s : List Doc)
    (h : ∀ x ∈ s, p x = false) : countMatching p s = 0 := by
  unfold countMatching
  rw [List.length_eq_zero, List.filter_eq_nil_iff]
  intro a ha
  exact Bool.eq_false_iff.mp (h a ha)

/-! ### Lemmas about the pattern fragment -/

theorem parsePattern_no_meta (cs : List Char)
    (h : ∀ c ∈ cs, isRegexMetaChar c = false) :
    parsePattern cs = some (cs.map RTok.lit) := by
  induction cs with
  | nil => rfl
  | cons c rest ih =>
    have hc : isRegexMetaChar c = false := h c (List.mem_cons_self c rest)
    have hdot : (c == '.') = false := by
      by_contra hcon
      have hct : (c == '.') = true := by simpa using hcon
      have : isRegexMetaChar c = true := by
        unfold isRegexMetaChar
        rw [hct]
        simp
      rw [this] at hc
      cases hc
    rw [parsePattern, if_neg (by simp [hdot]), if_neg (by simp [hc]),
      ih (fun x hx => h x (List.mem_cons_of_mem c hx))]
    rfl

theorem matchHere_map_lit (qs : List Char) (s : List Char) :
    matchHere (qs.map RTok.lit) s = ciPrefixOf qs s := by
  induction qs generalizing s with
  | nil => cases s <;> rfl
  | cons q qs ih =>
    cases s with
    | nil => rfl
    | cons c cs => simp [matchHere, ciPrefixOf, tokMatches, ih]

theorem matchSomewhere_map_lit (qs : List Char) (s : List Char) :
    matchSomewhere (qs.map RTok.lit) s = ciSubstringOf qs s := by
  induction s with
  | nil => simp [matchSomewhere, ciSubstringOf, matchHere_map_lit]
  | cons c cs ih => simp [matchSomewhere, ciSubstringOf, matchHere_map_lit, ih]

/-! ### Lemmas about ObjectId hex strings -/

theorem hexCharVal_hexDigitChar (d : Nat) (h : d < 16) :
    hexCharVal (hexDigitChar d) = d := by
  interval_cases d <;> decide

theorem isHexDigitChar_hexDigitChar (d : Nat) (h : d < 16) :
    isHexDigitChar (hexDigitChar d) = true := by
  interval_cases d <;> decide

theorem length_natToHexChars (w v : Nat) : (natToHexChars w v).length = w := by
  induction w generalizing v with
  | zero => rfl
  | succ n ih => simp [natToHexChars, ih]

theorem all_hex_natToHexChars (w v : Nat) :
    (natToHexChars w v).all isHexDigitChar = true := by
  induction w generalizing v with
  | zero => rfl
  | succ n ih =>
    rw [natToHexChars, List.all_append, ih]
    simp [isHexDigitChar_hexDigitChar _ (Nat.mod_lt _ (by norm_num))]

theorem oidFromHexChars_natToHexChars (w v : Nat) :
    oidFromHexChars (natToHexChars w v) = v % 16 ^ w := by
  induction w generalizing v with
  | zero =>
    simp only [natToHexChars, oidFromHexChars, List.foldl_nil, pow_zero]
    omega
  | succ n ih =>
    rw [natToHexChars]
    unfold oidFromHexChars
    rw [List.foldl_append]
    simp only [List.foldl_cons, List.foldl_nil]
    have hdec := ih (v / 16)
    unfold oidFromHexChars at hdec
    rw [hdec, hexCharVal_hexDigitChar _ (Nat.mod_lt _ (by norm_num)),
      pow_succ', Nat.mod_mul]
    omega

theorem oidOfHex_oidToHex (n : Nat) (h : n < 16 ^ 24) :
    oidOfHex (oidToHex n) = n := by
  unfold oidOfHex oidToHex
  rw [show (String.mk (natToHexChars 24 n)).toList = natToHexChars 24 n from rfl,
    oidFromHexChars_natToHexChars]
  exact Nat.mod_eq_of_lt h

theorem isValidObjectIdStr_oidToHex (n : Nat) :
    isValidObjectIdStr (oidToHex n) = true := by
  unfold isValidObjectIdStr oidToHex
  rw [show (String.mk (natToHexChars 24 n)).toList = natToHexChars 24 n from rfl,
    show (String.mk (natToHexChars 24 n)).length = (natToHexChars 24 n).length from rfl,
    length_natToHexChars, all_hex_natToHexChars]
  rfl

/-! ### Lemmas about the BSON sort order -/

theorem bsonLe_total (x y : Option Val) : (bsonLe x y || bsonLe y x) = true := by
  rcases x with _ | (a | a | a | a) <;> rcases y with _ | (b | b | b | b) <;>
    simp [bsonLe, bsonRank, bsonInnerLe] <;>
    first
      | omega
      | exact le_total a b
      | exact le_total a.data b.data

theorem bsonLe_trans (x y z : Option Val) (h1 : bsonLe x y = true)
    (h2 : bsonLe y z = true) : bsonLe x z = true := by
  rcases x with _ | (a | a | a | a) <;> rcases y with _ | (b | b | b | b) <;>
    rcases z with _ | (c | c | c | c) <;>
    simp_all [bsonLe, bsonRank, bsonInnerLe] <;>
    first
      | omega
      | exact le_trans h1 h2

theorem ratingGe_trans (a b c : Doc) (h1 : ratingGe a b = true)
    (h2 : ratingGe b c = true) : ratingGe a c = true :=
  bsonLe_trans _ _ _ h2 h1

theorem ratingGe_total (a b : Doc) : (ratingGe a b || ratingGe b a) = true :=
  bsonLe_total (getField b "rating") (getField a "rating")

/-! ### Helper lemmas for the claim theorems -/

theorem find?_of_unique (p : Doc → Bool) (l : List Doc) (d : Doc)
    (hmem : d ∈ l) (hd : p d = true) (huniq : ∀ x ∈ l, p x = true → x = d) :
    l.find? p = some d := by
  induction l with
  | nil => cases hmem
  | cons a as ih =>
    by_cases ha : p a = true
    · rw [List.find?_cons_of_pos _ ha, huniq a (List.mem_cons_self a as) ha]
    · rw [List.find?_cons_of_neg _ ha]
      rcases List.mem_cons.mp hmem with he | hm
      · subst he
        exact absurd hd ha
      · exact ih hm (fun x hx hpx => huniq x (List.mem_cons_of_mem a hx) hpx)

theorem setField_of_absent (d : Doc) (k : String) (v : Val)
    (h : getField d k = none) : setField d k v = d ++ [(k, v)] := by
  induction d with
  | nil => rfl
  | cons hd tl ih =>
    rcases hd with ⟨k0, v0⟩
    by_cases hh : k0 = k
    · subst hh
      simp [getField] at h
    · rw [getField_cons, if_neg (by simp [hh])] at h
      simp [setField, hh, ih h]

theorem storedReview_shape (body : Doc) (now freshId : Nat)
    (hid : getField body "_id" = none)
    (hca : getField body "createdAt" = none)
    (hua : getField body "updatedAt" = none) :
    storedReview body now freshId =
      body ++ [("createdAt", Val.date now), ("updatedAt", Val.date now),
        ("_id", Val.oid freshId)] := by
  have hrev : setFields body [("createdAt", Val.date now), ("updatedAt", Val.date now)] =
      body ++ [("createdAt", Val.date now), ("updatedAt", Val.date now)] := by
    simp only [setFields_cons, setFields_nil]
    rw [setField_of_absent body _ _ hca]
    rw [setField_of_absent _ _ _ (by rw [getField_append, hua]; rfl)]
    rw [List.append_assoc]
    rfl
  have hidr : getField (body ++ [("createdAt", Val.date now), ("updatedAt", Val.date now)])
      "_id" = none := by
    rw [getField_append, hid]
    rfl
  simp only [storedReview, hrev, hidr]
  rw [setField_of_absent _ _ _ hidr, List.append_assoc]
  rfl

theorem watchlistStored_other (b : Doc) (now freshId : Nat) (k : String)
    (h1 : ("addedAt" == k) = false) (h2 : ("_id" == k) = false) :
    getField (watchlistStored b now freshId) k = getField b k := by
  simp only [watchlistStored]
  rw [getField_setField_other _ _ _ _ h2, getField_setField_other _ _ _ _ h1]

theorem watchlistStored_addedAt (b : Doc) (now freshId : Nat) :
    getField (watchlistStored b now freshId) "addedAt" = some (Val.date now) := by
  simp only [watchlistStored]
  rw [getField_setField_other _ _ _ _ (by decide)]
  exact getField_setField_same _ _ _

theorem upsertUserDoc_unfold (b : Doc) (now : Nat) :
    upsertUserDoc b now =
      setField (setField b "lastLogin" (Val.date now)) "joinDate"
        (match getField b "joinDate" with
         | some v => if jsTruthyVal v then v else Val.date now
         | none => Val.date now) := by
  simp only [upsertUserDoc, setFields_cons, setFields_nil]

theorem upsertUserDoc_email (b : Doc) (now : Nat) :
    getField (upsertUserDoc b now) "email" = getField b "email" := by
  rw [upsertUserDoc_unfold]
  rw [getField_setField_other _ _ _ _ (by decide),
    getField_setField_other _ _ _ _ (by decide)]

theorem upsertUserDoc_lastLogin (b : Doc) (now : Nat) :
    getField (upsertUserDoc b now) "lastLogin" = some (Val.date now) := by
  rw [upsertUserDoc_unfold]
  rw [getField_setField_other _ _ _ _ (by decide)]
  exact getField_setField_same _ _ _

theorem upsertUserDoc_joinDate_default (b : Doc) (now : Nat)
    (h : getField b "joinDate" = none) :
    getField (upsertUserDoc b now) "joinDate" = some (Val.date now) := by
  rw [upsertUserDoc_unfold, h]
  exact getField_setField_same _ _ _

theorem upsertUserDoc_keysNodup (b : Doc) (now : Nat) (h : keysNodup b) :
    keysNodup (upsertUserDoc b now) := by
  rw [upsertUserDoc_unfold]
  exact keysNodup_setField _ _ _ (keysNodup_setField _ _ _ h)

theorem upsertUser_char (s : List Doc) (b : Doc) (now : Nat) (e : Val)
    (he : getField b "email" = some e) (hnd : keysNodup b)
    (hcount : countEmail s e ≤ 1) :
    countEmail (upsertUser s b now) e = 1 ∧
    ∃ d, (upsertUser s b now).find? (emailMatches e) = some d ∧
      getField d "lastLogin" = some (Val.date now) ∧
      (getField b "joinDate" = none → getField d "joinDate" = some (Val.date now)) := by
  have hpred : (fun d => getField d "email" == getField b "email") = emailMatches e := by
    funext d
    rw [he]
    rfl
  have hu_email : getField (upsertUserDoc b now) "email" = some e := by
    rw [upsertUserDoc_email, he]
  have hu_nodup : keysNodup (upsertUserDoc b now) := upsertUserDoc_keysNodup b now hnd
  have hu_last : getField (upsertUserDoc b now) "lastLogin" = some (Val.date now) :=
    upsertUserDoc_lastLogin b now
  simp only [upsertUser]
  rw [hpred]
  rcases hfm : s.find? (emailMatches e) with _ | d0
  · have hnone2 : updateFirstMatch (emailMatches e)
        (fun d => setFields d (upsertUserDoc b now)) s = none :=
      updateFirstMatch_eq_none _ _ _ hfm
    simp only [hnone2, he]
    have hall : ∀ x ∈ s, emailMatches e x = false := by
      intro x hx
      exact Bool.eq_false_iff.mpr ((List.find?_eq_none.mp hfm) x hx)
    have hseed : getField ([("email", e)] : Doc) "email" = some e := by
      simp [getField]
    have hmatch : emailMatches e (setFields [("email", e)] (upsertUserDoc b now)) = true := by
      unfold emailMatches
      rw [getField_setFields_of_some _ _ _ _ hu_nodup hu_email]
      simp
    constructor
    · rw [countEmail, countMatching_append, countMatching_eq_zero _ _ hall,
        countMatching_cons, hmatch]
      simp [countMatching]
    · refine ⟨setFields [("email", e)] (upsertUserDoc b now), ?_, ?_, ?_⟩
      · exact find?_first _ s _ [] hall hmatch
      · exact getField_setFields_of_some _ _ _ _ hu_nodup hu_last
      · intro hj
        exact getField_setFields_of_some _ _ _ _ hu_nodup
          (upsertUserDoc_joinDate_default b now hj)
  · rcases find?_split hfm with ⟨pre, post, heq, hpre⟩
    have hd0 : emailMatches e d0 = true := List.find?_some hfm
    have hsplit : updateFirstMatch (emailMatches e)
        (fun d => setFields d (upsertUserDoc b now)) s
        = some (pre ++ setFields d0 (upsertUserDoc b now) :: post) := by
      rw [heq]
      exact updateFirstMatch_split _ _ _ _ _ hpre hd0
    simp only [hsplit]
    have hmatch : emailMatches e (setFields d0 (upsertUserDoc b now)) = true := by
      unfold emailMatches
      rw [getField_setFields_of_some _ _ _ _ hu_nodup hu_email]
      simp
    have hpre0 : countMatching (emailMatches e) pre = 0 := countMatching_eq_zero _ _ hpre
    have hpost0 : countMatching (emailMatches e) post = 0 := by
      rw [heq] at hcount
      unfold countEmail at hcount
      rw [countMatching_append, countMatching_cons, hpre0, hd0] at hcount
      simpa using hcount
    constructor
    · rw [countEmail, countMatching_append, countMatching_cons, hpre0, hmatch, hpost0]
      simp
    · refine ⟨setFields d0 (upsertUserDoc b now), ?_, ?_, ?_⟩
      · exact find?_first _ pre _ post hpre hmatch
      · exact getField_setFields_of_some _ _ _ _ hu_nodup hu_last
      · intro hj
        exact getField_setFields_of_some _ _ _ _ hu_nodup
          (upsertUserDoc_joinDate_default b now hj)

/-! ### Claim theorems -/

/-- C3 counterexample: on the malformed identifier string "xyz" the
getReview handler answers with a 500 internal error response (the
ObjectId constructor throws and the catch block sends 500), not with
NotFound or BadRequest as the claim states. -/
theorem getReview_malformed_id_counterexample :
    getReview [] "xyz" = RouteResult.err 500 invalidObjectIdMsg ∧
    statusOf (getReview [] "xyz") = 500 := by
  decide

/-- C3 (amended): an identifier string that is not a well-formed
ObjectId makes getReview answer 500 (caught constructor throw, not a
process crash); a well-formed identifier matching no document yields
NotFound (404); a well-formed identifier whose document is present (and
unique, identifiers being unique) yields that single Review document. -/
theorem getReview_spec (reviews : List Doc) (idStr : String) :
    (isValidObjectIdStr idStr = false →
      getReview reviews idStr = RouteResult.err 500 invalidObjectIdMsg) ∧
    (isValidObjectIdStr idStr = true →
      ((∀ d ∈ reviews, hasOid (oidOfHex idStr) d = false) →
        getReview reviews idStr = RouteResult.err 404 "Review not found") ∧
      (∀ d, d ∈ reviews → hasOid (oidOfHex idStr) d = true →
        (∀ x ∈ reviews, hasOid (oidOfHex idStr) x = true → x = d) →
        getReview reviews idStr = RouteResult.ok d)) := by
  have hpred : (fun d => getField d "_id" == some (Val.oid (oidOfHex idStr))) =
      hasOid (oidOfHex idStr) := rfl
  constructor
  · intro hbad
    unfold getReview
    rw [if_neg (by simp [hbad])]
  · intro hval
    constructor
    · intro hnone
      unfold getReview
      rw [if_pos hval, hpred,
        List.find?_eq_none.mpr (fun x hx => by simp [hnone x hx])]
    · intro d hmem hd huniq
      unfold getReview
      rw [if_pos hval, hpred, find?_of_unique _ _ _ hmem hd huniq]

/-- Witness for C3: a well-formed identifier over the empty collection
yields the 404 response. -/
theorem getReview_spec_witness :
    getReview [] "0123456789abcdef01234567" = RouteResult.err 404 "Review not found" :=
  ((getReview_spec [] "0123456789abcdef01234567").2 (by decide)).1
    (fun d hd => absurd hd (List.not_mem_nil d))

/-- C7: listTopRatedReviews returns at most 6 documents, pairwise
non-increasing in the BSON order of their rating field, and every
returned document comes from the collection. -/
theorem listTopRatedReviews_spec (reviews : List Doc) :
    ∃ l, listTopRatedReviews reviews = RouteResult.okList l ∧
      l.length ≤ 6 ∧
      List.Pairwise (fun a b => ratingGe a b = true) l ∧
      ∀ d ∈ l, d ∈ reviews := by
  have hsorted : List.Pairwise (fun a b => ratingGe a b = true)
      (reviews.mergeSort ratingGe) :=
    List.sorted_mergeSort (fun a b c h1 h2 => ratingGe_trans a b c h1 h2)
      (fun a b => ratingGe_total a b) reviews
  refine ⟨(reviews.mergeSort ratingGe).take 6, rfl, List.length_take_le _ _, ?_, ?_⟩
  · exact List.Pairwise.sublist (List.take_sublist _ _) hsorted
  · intro d hd
    exact (List.mergeSort_perm reviews ratingGe).mem_iff.mp
      ((List.take_sublist _ _).subset hd)

/-- C8 counterexample: the id string "xyz" matches no stored Review, yet
updateReview answers with a 500 error response (the ObjectId constructor
throws), refuting "never an error" for arbitrary id strings. -/
theorem updateReview_malformed_id_counterexample :
    (updateReview [] "xyz" [] 0).1 = RouteResult.err 500 invalidObjectIdMsg ∧
    statusOf (updateReview [] "xyz" [] 0).1 = 500 ∧
    (updateReview [] "xyz" [] 0).2 = [] := by
  decide

/-- C8 (amended): for every well-formed id string matching no stored
Review, updateReview returns the zero-matched mutation summary, is not
an error, and leaves the collection unchanged. -/
theorem updateReview_missing_id_zero_matched (reviews : List Doc) (idStr : String)
    (body : Doc) (now : Nat)
    (hvalid : isValidObjectIdStr idStr = true)
    (hnone : reviews.find? (hasOid (oidOfHex idStr)) = none) :
    updateReview reviews idStr body now = (RouteResult.okSummary 0 0, reviews) := by
  have hpred : (fun x => getField x "_id" == some (Val.oid (oidOfHex idStr))) =
      hasOid (oidOfHex idStr) := rfl
  have hnm : updateFirstMatch (hasOid (oidOfHex idStr))
      (fun x => setFields x (setField body "updatedAt" (Val.date now))) reviews = none :=
    updateFirstMatch_eq_none _ _ _ hnone
  simp only [updateReview]
  rw [if_pos hvalid, hpred, hnm]

/-- Witness for C8: a well-formed identifier over the empty collection
yields the zero-matched summary and an unchanged state. -/
theorem updateReview_missing_id_zero_matched_witness :
    updateReview [] "0123456789abcdef01234567" [("rating", Val.int 4)] 5 =
      (RouteResult.okSummary 0 0, []) :=
  updateReview_missing_id_zero_matched [] "0123456789abcdef01234567"
    [("rating", Val.int 4)] 5 (by decide) (by decide)

/-- C9: searchReviews with all three filter parameters absent returns
exactly what listReviews returns (the empty filter is the find-all
query). -/
theorem searchReviews_no_filters_eq_listReviews (reviews : List Doc) :
    searchReviews reviews none none none = listReviews reviews := by
  show RouteResult.okList (reviews.filter fun d =>
    genreFilterMatches none d && ratingFilterMatches none d) = RouteResult.okList reviews
  rw [show (fun d : Doc => genreFilterMatches none d && ratingFilterMatches none d) =
    (fun _ => true) from rfl, List.filter_true]

/-- C10: the q parameter of searchReviews is interpreted as a regular
expression, not a literal substring: the pattern "b.d" matches the title
"badc" although "b.d" is not a substring of it, and the ill-formed
pattern "(" makes the query fail with a 500 response even against a
title containing "(" literally. -/
theorem searchReviews_q_is_regex_pattern :
    (searchReviews [[("gameTitle", Val.str "badc")]] (some "b.d") none none =
      RouteResult.okList [[("gameTitle", Val.str "badc")]] ∧
    containsCI "b.d" "badc" = false) ∧
    searchReviews [[("gameTitle", Val.str "x(y")]] (some "(") none none =
      RouteResult.err 500 invalidRegexMsg := by
  decide

/-- C6 counterexample: with q = "D.g" the search returns the review
titled "Dxg" (the dot is a wildcard), although "D.g" is not contained in
"Dxg" case-insensitively, so the result is not exactly the reviews whose
gameTitle contains q. -/
theorem searchReviews_substring_counterexample :
    searchReviews [[("gameTitle", Val.str "Dxg")]] (some "D.g") none none =
      RouteResult.okList [[("gameTitle", Val.str "Dxg")]] ∧
    titleContainsCI "D.g" [[("gameTitle", Val.str "Dxg")]].head! = false := by
  decide

/-- C6 (amended): for a q without regex metacharacters the q filter is
exactly case-insensitive substring containment on gameTitle (for general
q it is regex matching, see the counterexample); the genre filter is
exact equality; the minRating filter (when it parses) is rating at least
the parsed threshold; several filters combine conjunctively and absent
filters impose no constraint. -/
theorem searchReviews_filters_spec (reviews : List Doc) (qs gs ms : String) (t : Int)
    (hq : qs ≠ "") (hmeta : ∀ c ∈ qs.toList, isRegexMetaChar c = false)
    (hg : gs ≠ "") (hms : ms ≠ "") (hparse : parseIntJS ms = some t) :
    searchReviews reviews (some qs) (some gs) (some ms) =
      RouteResult.okList (reviews.filter (fun d =>
        titleContainsCI qs d && genreIs gs d && ratingAtLeast t d)) ∧
    searchReviews reviews (some qs) none none =
      RouteResult.okList (reviews.filter (fun d => titleContainsCI qs d)) ∧
    searchReviews reviews none (some gs) none =
      RouteResult.okList (reviews.filter (fun d => genreIs gs d)) ∧
    searchReviews reviews none none (some ms) =
      RouteResult.okList (reviews.filter (fun d => ratingAtLeast t d)) := by
  have haq : activeParam (some qs) = some qs := by simp [activeParam, hq]
  have hag : activeParam (some gs) = some gs := by simp [activeParam, hg]
  have ham : activeParam (some ms) = some ms := by simp [activeParam, hms]
  have han : activeParam (none : Option String) = none := rfl
  have hpp : parsePattern qs.toList = some (qs.toList.map RTok.lit) :=
    parsePattern_no_meta _ hmeta
  have htitle : ∀ d, titleRegexMatches (qs.toList.map RTok.lit) d = titleContainsCI qs d := by
    intro d
    unfold titleRegexMatches titleContainsCI containsCI
    cases hgf : getField d "gameTitle" with
    | none => rfl
    | some v => cases v <;> simp [matchSomewhere_map_lit]
  have hrating : ∀ d, ratingFilterMatches (some ms) d = ratingAtLeast t d := by
    intro d
    simp only [ratingFilterMatches, hparse, ratingAtLeast]
  refine ⟨?_, ?_, ?_, ?_⟩
  · simp only [searchReviews, haq, hag, ham, hpp]
    exact congrArg RouteResult.okList (List.filter_congr (fun d hd => by
      rw [htitle, hrating]
      rfl))
  · simp only [searchReviews, haq, han, hpp]
    exact congrArg RouteResult.okList (List.filter_congr (fun d hd => by
      rw [htitle]
      simp [genreFilterMatches, ratingFilterMatches]))
  · simp only [searchReviews, han, hag]
    exact congrArg RouteResult.okList (List.filter_congr (fun d hd => by
      simp [genreFilterMatches, ratingFilterMatches, genreIs]))
  · simp only [searchReviews, han, ham]
    exact congrArg RouteResult.okList (List.filter_congr (fun d hd => by
      rw [hrating]
      simp [genreFilterMatches]))

/-- Witness for C6: a review matching all three filters is returned by
the combined search. -/
theorem searchReviews_filters_spec_witness :
    searchReviews [[("gameTitle", Val.str "Zelda II"), ("genre", Val.str "RPG"),
        ("rating", Val.int 5)]] (some "zelda") (some "RPG") (some "5") =
      RouteResult.okList [[("gameTitle", Val.str "Zelda II"), ("genre", Val.str "RPG"),
        ("rating", Val.int 5)]] := by
  have h := (searchReviews_filters_spec [[("gameTitle", Val.str "Zelda II"),
      ("genre", Val.str "RPG"), ("rating", Val.int 5)]] "zelda" "RPG" "5" 5
    (by decide) (by decide) (by decide) (by decide) (by decide)).1
  rw [h]
  decide

/-- C1 counterexample: upserting the same email twice, the second time
without a joinDate in the body, changes the stored joinDate (the handler
always puts joinDate into the $set, defaulting it to the call time), so
joinDate is not preserved across upserts. -/
theorem upsertUser_joinDate_reset_counterexample :
    getField ((upsertUser (upsertUser [] [("email", Val.str "a@b.com")] 100)
        [("email", Val.str "a@b.com")] 200).headD []) "joinDate" ≠
      getField ((upsertUser [] [("email", Val.str "a@b.com")] 100).headD []) "joinDate" := by
  decide

/-- C1 (amended): upsertUser is idempotent per email: starting from a
state with at most one User document for the email, two calls leave
exactly one User document for it, and lastLogin differs between the two
calls; but when the second body does not supply joinDate the stored
joinDate is reset to the second call timestamp, not preserved. -/
theorem upsertUser_twice_spec (s : List Doc) (b1 b2 : Doc) (e : Val) (now1 now2 : Nat)
    (h1 : getField b1 "email" = some e) (h2 : getField b2 "email" = some e)
    (hnd1 : keysNodup b1) (hnd2 : keysNodup b2)
    (hcount : countEmail s e ≤ 1) (hne : now1 ≠ now2)
    (hjd : getField b2 "joinDate" = none) :
    countEmail (upsertUser (upsertUser s b1 now1) b2 now2) e = 1 ∧
    ∃ d1 d2,
      (upsertUser s b1 now1).find? (emailMatches e) = some d1 ∧
      (upsertUser (upsertUser s b1 now1) b2 now2).find? (emailMatches e) = some d2 ∧
      getField d1 "lastLogin" = some (Val.date now1) ∧
      getField d2 "lastLogin" = some (Val.date now2) ∧
      getField d1 "lastLogin" ≠ getField d2 "lastLogin" ∧
      getField d2 "joinDate" = some (Val.date now2) := by
  rcases upsertUser_char s b1 now1 e h1 hnd1 hcount with ⟨hc1, d1, hf1, hl1, _⟩
  rcases upsertUser_char _ b2 now2 e h2 hnd2 (le_of_eq hc1) with ⟨hc2, d2, hf2, hl2, hj2⟩
  refine ⟨hc2, d1, d2, hf1, hf2, hl1, hl2, ?_, hj2 hjd⟩
  rw [hl1, hl2]
  simp [hne]

/-- Witness for C1: two concrete upserts of the same email leave exactly
one User document for it. -/
theorem upsertUser_twice_spec_witness :
    countEmail (upsertUser (upsertUser [] [("email", Val.str "a@b.com")] 100)
      [("email", Val.str "a@b.com")] 200) (Val.str "a@b.com") = 1 :=
  (upsertUser_twice_spec [] [("email", Val.str "a@b.com")] [("email", Val.str "a@b.com")]
    (Val.str "a@b.com") 100 200 (by decide) (by decide)
    (by unfold keysNodup; decide) (by unfold keysNodup; decide)
    (by decide) (by decide) (by decide)).1

/-- C2: when a watchlist entry with the same (userEmail, gameTitle) pair
exists, addToWatchlist rejects with the 400 duplicate response (the
Conflict of the specification) and inserts nothing; when the pair is
absent it appends the body stamped with addedAt = now and responds with
the stored document; and after two sequential identical calls the
collection holds exactly one matching entry. -/
theorem addToWatchlist_spec (s : List Doc) (b : Doc) (ue gt : Val)
    (now1 id1 now2 id2 : Nat)
    (hue : getField b "userEmail" = some ue)
    (hgt : getField b "gameTitle" = some gt) :
    (s.find? (pairMatches ue gt) ≠ none →
      addToWatchlist s b now1 id1 = (RouteResult.err 400 "Already in watchlist", s)) ∧
    (s.find? (pairMatches ue gt) = none →
      addToWatchlist s b now1 id1 =
        (RouteResult.ok (watchlistStored b now1 id1), s ++ [watchlistStored b now1 id1]) ∧
      getField (watchlistStored b now1 id1) "addedAt" = some (Val.date now1) ∧
      countPair (addToWatchlist (addToWatchlist s b now1 id1).2 b now2 id2).2 ue gt = 1) := by
  have hpred : (fun d => getField d "userEmail" == getField b "userEmail" &&
      getField d "gameTitle" == getField b "gameTitle") = pairMatches ue gt := by
    funext d
    rw [hue, hgt]
    rfl
  constructor
  · intro hne
    rcases hf : s.find? (pairMatches ue gt) with _ | d0
    · exact absurd hf hne
    · simp only [addToWatchlist, hpred, hf]
  · intro hnone
    have hstep1 : addToWatchlist s b now1 id1 =
        (RouteResult.ok (watchlistStored b now1 id1), s ++ [watchlistStored b now1 id1]) := by
      simp only [addToWatchlist, hpred, hnone]
    refine ⟨hstep1, watchlistStored_addedAt b now1 id1, ?_⟩
    rw [hstep1]
    have hmatch : pairMatches ue gt (watchlistStored b now1 id1) = true := by
      unfold pairMatches
      rw [watchlistStored_other _ _ _ _ (by decide) (by decide), hue,
        watchlistStored_other _ _ _ _ (by decide) (by decide), hgt]
      simp
    have hall : ∀ x ∈ s, pairMatches ue gt x = false := fun x hx =>
      Bool.eq_false_iff.mpr ((List.find?_eq_none.mp hnone) x hx)
    have hfind2 : (s ++ [watchlistStored b now1 id1]).find? (pairMatches ue gt) =
        some (watchlistStored b now1 id1) := find?_first _ s _ [] hall hmatch
    have hstep2 : addToWatchlist (s ++ [watchlistStored b now1 id1]) b now2 id2 =
        (RouteResult.err 400 "Already in watchlist", s ++ [watchlistStored b now1 id1]) := by
      simp only [addToWatchlist, hpred, hfind2]
    rw [hstep2]
    rw [countPair, countMatching_append, countMatching_eq_zero _ _ hall,
      countMatching_cons, hmatch]
    simp [countMatching]

/-- Witness for C2: two identical concrete calls leave exactly one
matching entry. -/
theorem addToWatchlist_spec_witness :
    countPair (addToWatchlist (addToWatchlist []
      [("userEmail", Val.str "a@b.com"), ("gameTitle", Val.str "Halo")] 10 1).2
      [("userEmail", Val.str "a@b.com"), ("gameTitle", Val.str "Halo")] 20 2).2
      (Val.str "a@b.com") (Val.str "Halo") = 1 :=
  ((addToWatchlist_spec [] [("userEmail", Val.str "a@b.com"), ("gameTitle", Val.str "Halo")]
    (Val.str "a@b.com") (Val.str "Halo") 10 1 20 2 (by decide) (by decide)).2
    (by decide)).2.2

/-- C4 counterexample: an update whose body itself carries a createdAt
field overwrites the stored createdAt (the handler spreads the raw body
into the $set), so createdAt is not immutable under arbitrary partial
bodies. -/
theorem updateReview_createdAt_counterexample :
    getField (((updateReview [[("_id", Val.oid 5), ("createdAt", Val.date 1),
        ("updatedAt", Val.date 1)]] (oidToHex 5) [("createdAt", Val.date 999)] 2).2).headD [])
      "createdAt" ≠ some (Val.date 1) := by
  decide

/-- C4 (amended): for every stored Review and every update whose partial
body does not itself contain a createdAt key, createdAt is unchanged by
the update; updatedAt is set to the call time, so it changes whenever
the previous value differs from that time. -/
theorem updateReview_field_behavior (reviews : List Doc) (idStr : String)
    (body : Doc) (now : Nat) (d : Doc)
    (hvalid : isValidObjectIdStr idStr = true)
    (hfind : reviews.find? (hasOid (oidOfHex idStr)) = some d)
    (hnb : getField body "createdAt" = none)
    (hnd : keysNodup body) :
    ∃ pre post,
      reviews = pre ++ d :: post ∧
      (updateReview reviews idStr body now).2 =
        pre ++ setFields d (setField body "updatedAt" (Val.date now)) :: post ∧
      getField (setFields d (setField body "updatedAt" (Val.date now))) "createdAt" =
        getField d "createdAt" ∧
      getField (setFields d (setField body "updatedAt" (Val.date now))) "updatedAt" =
        some (Val.date now) ∧
      (getField d "updatedAt" ≠ some (Val.date now) →
        getField (setFields d (setField body "updatedAt" (Val.date now))) "updatedAt" ≠
          getField d "updatedAt") := by
  have hpred : (fun x => getField x "_id" == some (Val.oid (oidOfHex idStr))) =
      hasOid (oidOfHex idStr) := rfl
  rcases find?_split hfind with ⟨pre, post, heq, hpre⟩
  have hpd : hasOid (oidOfHex idStr) d = true := List.find?_some hfind
  have hua : getField (setFields d (setField body "updatedAt" (Val.date now))) "updatedAt" =
      some (Val.date now) :=
    getField_setFields_of_some _ _ _ _ (keysNodup_setField _ _ _ hnd)
      (getField_setField_same _ _ _)
  refine ⟨pre, post, heq, ?_, ?_, hua, ?_⟩
  · have hsplit : updateFirstMatch (hasOid (oidOfHex idStr))
        (fun x => setFields x (setField body "updatedAt" (Val.date now))) reviews =
        some (pre ++ setFields d (setField body "updatedAt" (Val.date now)) :: post) := by
      rw [heq]
      exact updateFirstMatch_split _ _ _ _ _ hpre hpd
    simp only [updateReview]
    rw [if_pos hvalid, hpred, hsplit]
  · have hset : getField (setField body "updatedAt" (Val.date now)) "createdAt" = none := by
      rw [getField_setField_other _ _ _ _ (by decide), hnb]
    exact getField_setFields_of_none _ _ _ hset
  · intro hne hcon
    rw [hua] at hcon
    exact hne hcon.symm

/-- Witness for C4: a concrete update without a createdAt key keeps the
stored createdAt. -/
theorem updateReview_field_behavior_witness :
    getField (setFields [("_id", Val.oid 1), ("createdAt", Val.date 3)]
      (setField [("rating", Val.int 4)] "updatedAt" (Val.date 9))) "createdAt" =
      getField [("_id", Val.oid 1), ("createdAt", Val.date 3)] "createdAt" := by
  rcases updateReview_field_behavior [[("_id", Val.oid 1), ("createdAt", Val.date 3)]]
      (oidToHex 1) [("rating", Val.int 4)] 9 [("_id", Val.oid 1), ("createdAt", Val.date 3)]
      (by decide) (by decide) (by decide) (by unfold keysNodup; decide)
      with ⟨pre, post, h1, h2, h3, h4, h5⟩
  exact h3

/-- C5: creating a review from a payload that carries none of the
server-assigned keys and reading it back through the returned hex
identifier yields exactly the payload extended with createdAt,
updatedAt and the assigned identifier; the creation response carries the
same stored document. -/
theorem createReview_then_getReview (reviews : List Doc) (body : Doc) (now freshId : Nat)
    (hfresh : ∀ d ∈ reviews, hasOid freshId d = false)
    (hbound : freshId < 16 ^ 24)
    (hid : getField body "_id" = none)
    (hca : getField body "createdAt" = none)
    (hua : getField body "updatedAt" = none) :
    (createReview reviews body now freshId).1 =
      RouteResult.ok (body ++ [("createdAt", Val.date now), ("updatedAt", Val.date now),
        ("_id", Val.oid freshId)]) ∧
    getReview (createReview reviews body now freshId).2 (oidToHex freshId) =
      RouteResult.ok (body ++ [("createdAt", Val.date now), ("updatedAt", Val.date now),
        ("_id", Val.oid freshId)]) := by
  have hshape := storedReview_shape body now freshId hid hca hua
  have hstored_id : getField (storedReview body now freshId) "_id" =
      some (Val.oid freshId) := by
    rw [hshape, getField_append, hid]
    rfl
  constructor
  · show RouteResult.ok (storedReview body now freshId) = _
    rw [hshape]
  · show getReview (reviews ++ [storedReview body now freshId]) (oidToHex freshId) = _
    unfold getReview
    rw [if_pos (isValidObjectIdStr_oidToHex freshId)]
    simp only [oidOfHex_oidToHex freshId hbound]
    have hfound : (reviews ++ [storedReview body now freshId]).find?
        (fun d => getField d "_id" == some (Val.oid freshId)) =
        some (storedReview body now freshId) := by
      apply find?_first
      · intro x hx
        exact hfresh x hx
      · simp [hstored_id]
    rw [hfound, hshape]

/-- Witness for C5: a concrete round trip through create and get. -/
theorem createReview_then_getReview_witness :
    getReview ((createReview [] [("gameTitle", Val.str "Elden Ring")] 7 3).2) (oidToHex 3) =
      RouteResult.ok [("gameTitle", Val.str "Elden Ring"), ("createdAt", Val.date 7),
        ("updatedAt", Val.date 7), ("_id", Val.oid 3)] :=
  (createReview_then_getReview [] [("gameTitle", Val.str "Elden Ring")] 7 3
    (fun d hd => absurd hd (List.not_mem_nil d)) (by decide) (by decide) (by decide)
    (by decide)).2

end ChillGamer
